import Mathlib

/-!
Verification of the rv8 user-mode RISC-V proxy emulator against its
specification.

The development shallowly embeds the relevant parts of the emulator:

* the `brk` / `write` / `fstat` syscall proxies from
  `src/abi/riscv-unknown-abi.h` (`sys_brk`, `sys_write`, `sys_fstat`,
  `cvt_unknown_stat`, the `unknown_stat` struct layout);
* the instruction-length classifier `inst_length` from
  `src/asm/riscv-codec.h`;
* the ELF `PT_LOAD` segment selection and mapping from
  `app/riscv-test-emulate.cc` (`riscv_emulator::start`,
  `map_load_segment`, `elf_p_flags_mmap`);
* the stepper with its direct-mapped decode cache
  (`riscv_proxy_runner::step`, `inst_cache`).

Host effects (the results of the host `mmap`, `write`, `fstat` calls) are
passed in as explicit parameters; guest memory is a byte-addressed total
function; machine integers are `Nat` with explicit two's-complement
encoding (`intToReg`) where a negative value is stored in a register.
-/

namespace RV8

/-- Guest memory: a byte per address (identity-mapped flat address space). -/
def Mem : Type := Nat → Nat

/-- Modelled from the spec: `round_up` (defined in `riscv-util.h`, which is
not part of the sources) "rounds up to the host page size", i.e. to the
next multiple of the alignment. -/
def round_up (n align : Nat) : Nat :=
  ((n + align - 1) / align) * align

/-- Value stored when an `Int` (e.g. `-ENOMEM` or a host return value) is
written into an XLEN-wide register: its two's-complement bit pattern. -/
def intToReg (xlen : Nat) (v : Int) : Nat :=
  (v % ((2 : Int) ^ xlen)).toNat

/-- `ENOMEM` host errno constant. -/
def ENOMEM : Int := 12

/-- Processor state visible to the syscall proxies: argument registers
`a0`–`a2`, the brk cursors, the owned-segment list of
`riscv_processor_base` (pairs host address × length), and guest memory. -/
structure Proc where
  a0 : Nat
  a1 : Nat
  a2 : Nat
  heap_begin : Nat
  heap_end : Nat
  mapped_segments : List (Nat × Nat)
  mem : Mem

/-- `sys_brk` from `riscv-unknown-abi.h`.  The host page size and the
result of the (single, optional) host `mmap` call are parameters; the
`Bool` in the result records whether `mmap` was invoked. -/
def sys_brk (xlen page : Nat) (mmap_ok : Bool) (proc : Proc) : Proc × Bool :=
  let new_addr := proc.a0
  let curr_heap_end := round_up proc.heap_end page
  let new_heap_end := round_up new_addr page
  -- "return if the heap is already big enough"
  if proc.heap_end ≥ new_heap_end ∨ new_heap_end = curr_heap_end then
    ({ proc with a0 := new_addr }, false)
  else
    -- "map a new heap segment"
    match mmap_ok with
    | false => ({ proc with a0 := intToReg xlen (-ENOMEM) }, true)
    | true =>
        ({ proc with
            mapped_segments :=
              proc.mapped_segments ++ [(curr_heap_end, new_heap_end - curr_heap_end)],
            heap_end := new_heap_end,
            a0 := new_addr }, true)

/-- Result of a host libc call: return value plus the host `errno` left
behind by the call (meaningful when the return value signals failure). -/
structure HostCall where
  ret : Int
  errno : Nat

/-- `sys_write` from `riscv-unknown-abi.h`: the host `write` return value
is stored into `a0` unchanged (the proxy never consults `errno`). -/
def sys_write (xlen : Nat) (host : HostCall) (proc : Proc) : Proc :=
  { proc with a0 := intToReg xlen host.ret }

/-! ### Guest memory as bytes, and the ABI `struct stat` layout -/

/-- Little-endian byte image of the low `size` bytes of `v`. -/
def natToBytes : Nat → Nat → List Nat
  | 0, _ => []
  | size + 1, v => v % 256 :: natToBytes size (v / 256)

/-- Write a list of bytes into guest memory at consecutive addresses. -/
def write_bytes (m : Mem) (addr : Nat) : List Nat → Mem
  | [] => m
  | b :: bs => write_bytes (fun x => if x = addr then b else m x) (addr + 1) bs

/-- Little-endian read of `size` bytes at `addr`. -/
def read_le (m : Mem) (addr : Nat) : Nat → Nat
  | 0 => 0
  | size + 1 => m addr + 256 * read_le m (addr + 1) size

/-- Store one scalar struct field (`size` bytes, little-endian). -/
def storeField (m : Mem) (addr size v : Nat) : Mem :=
  write_bytes m addr (natToBytes size v)

/-- Store a list of `(offset, size, value)` fields relative to `base`,
first to last (later stores win, as C assignments do). -/
def storeFields (m : Mem) (base : Nat) : List (Nat × Nat × Nat) → Mem
  | [] => m
  | f :: fs => storeFields (storeField m (base + f.1) f.2.1 f.2.2) base fs

/-- The fields of `struct unknown_stat` from `riscv-unknown-abi.h`, in
declaration order, with their byte sizes: `ulong_t`/`long_t` are
`xlen/8` bytes, `uint_t`/`int_t` are 4 bytes. -/
def unknown_stat_fields (xlen : Nat) : List (String × Nat) :=
  let w := xlen / 8
  [("dev", w), ("ino", w), ("mode", 4), ("nlink", 4), ("uid", 4),
   ("gid", 4), ("rdev", w), ("pad1", w), ("size", w), ("blksize", 4),
   ("pad2", 4), ("blocks", w), ("atime", w), ("atime_nsec", w),
   ("mtime", w), ("mtime_nsec", w), ("ctime", w), ("ctime_nsec", w),
   ("unused4", 4), ("unused5", 4)]

/-- C layout offsets for a list of scalar field sizes (each such field is
aligned to its own size): the next field starts at the end of the previous
one rounded up to the new field's alignment. -/
def structOffsetsAux (off : Nat) : List Nat → List Nat
  | [] => []
  | sz :: rest =>
      let o := round_up off sz
      o :: structOffsetsAux (o + sz) rest

/-- Offsets of all fields of a struct given their sizes. -/
def structOffsets (sizes : List Nat) : List Nat :=
  structOffsetsAux 0 sizes

/-- Byte offset of the `i`-th field of `struct unknown_stat`. -/
def statOffset (xlen i : Nat) : Nat :=
  ((structOffsets ((unknown_stat_fields xlen).map Prod.snd)).getD i 0)

/-- Host `struct stat` values, as delivered by the host `fstat`. -/
structure HostStat where
  st_dev : Int
  st_ino : Int
  st_mode : Int
  st_nlink : Int
  st_uid : Int
  st_gid : Int
  st_rdev : Int
  st_size : Int
  st_blksize : Int
  st_blocks : Int
  st_atime : Int
  st_atime_nsec : Int
  st_mtime : Int
  st_mtime_nsec : Int
  st_ctime : Int
  st_ctime_nsec : Int

/-- `cvt_unknown_stat` from `riscv-unknown-abi.h`: writes the assigned
fields of the ABI struct (in source assignment order) through the guest
pointer; each C assignment truncates the host value to the field width
(`intToReg`).  The pad and unused fields are never assigned. -/
def cvt_unknown_stat (xlen : Nat) (m : Mem) (addr : Nat) (hs : HostStat) : Mem :=
  let w := xlen / 8
  storeFields m addr [
    (statOffset xlen 0, w, intToReg (8 * w) hs.st_dev),
    (statOffset xlen 1, w, intToReg (8 * w) hs.st_ino),
    (statOffset xlen 2, 4, intToReg 32 hs.st_mode),
    (statOffset xlen 3, 4, intToReg 32 hs.st_nlink),
    (statOffset xlen 4, 4, intToReg 32 hs.st_uid),
    (statOffset xlen 5, 4, intToReg 32 hs.st_gid),
    (statOffset xlen 6, w, intToReg (8 * w) hs.st_rdev),
    (statOffset xlen 8, w, intToReg (8 * w) hs.st_size),
    (statOffset xlen 11, w, intToReg (8 * w) hs.st_blocks),
    (statOffset xlen 9, 4, intToReg 32 hs.st_blksize),
    (statOffset xlen 12, w, intToReg (8 * w) hs.st_atime),
    (statOffset xlen 13, w, intToReg (8 * w) hs.st_atime_nsec),
    (statOffset xlen 14, w, intToReg (8 * w) hs.st_mtime),
    (statOffset xlen 15, w, intToReg (8 * w) hs.st_mtime_nsec),
    (statOffset xlen 16, w, intToReg (8 * w) hs.st_ctime),
    (statOffset xlen 17, w, intToReg (8 * w) hs.st_ctime_nsec)]

/-- `sys_fstat` from `riscv-unknown-abi.h`: the host `fstat` return value
is assigned to `a0`; if the assigned register value equals 0 the host stat
is converted into the ABI struct at the guest address in `a1`, otherwise
nothing else is touched. -/
def sys_fstat (xlen : Nat) (host : HostCall) (hstat : HostStat) (p : Proc) : Proc :=
  let p1 := { p with a0 := intToReg xlen host.ret }
  if p1.a0 = 0 then
    { p1 with mem := cvt_unknown_stat xlen p1.mem p1.a1 hstat }
  else p1

/-! ### Instruction length classifier (`riscv-codec.h`) -/

/-- `inst_length` from `riscv-codec.h`: the cascaded mask tests, returning
0 as the illegal-length marker. -/
def inst_length (inst : Nat) : Nat :=
  if inst &&& 0b11 ≠ 0b11 then 2
  else if inst &&& 0b11100 ≠ 0b11100 then 4
  else if inst &&& 0b111111 = 0b011111 then 6
  else if inst &&& 0b1111111 = 0b0111111 then 8
  else 0

/-- Claim case: 2 bytes when the low two bits of `w` are not `11`. -/
abbrev len2case (w : Nat) : Prop := w % 4 ≠ 3

/-- Claim case: 4 bytes when the low two bits are `11` and bits `[4:2]`
are not `111`. -/
abbrev len4case (w : Nat) : Prop := w % 4 = 3 ∧ w / 4 % 8 ≠ 7

/-- Claim case: 6 bytes when the low six bits are `011111`. -/
abbrev len6case (w : Nat) : Prop := w % 64 = 0b011111

/-- Claim case: 8 bytes when the low seven bits are `0111111`. -/
abbrev len8case (w : Nat) : Prop := w % 128 = 0b0111111

/-! ### ELF load-segment mapping (`riscv-test-emulate.cc`) -/

/-- Standard ELF constant `PT_LOAD` (program-header type; `riscv-elf.h`,
outside the sources, carries the standard values). -/
def PT_LOAD : Nat := 1

/-- Standard ELF segment-flag bits. -/
def PF_X : Nat := 1

/-- Standard ELF segment-flag bits. -/
def PF_W : Nat := 2

/-- Standard ELF segment-flag bits. -/
def PF_R : Nat := 4

/-- Host `mmap` protection bits (Linux values). -/
def PROT_READ : Nat := 1

/-- Host `mmap` protection bits (Linux values). -/
def PROT_WRITE : Nat := 2

/-- Host `mmap` protection bits (Linux values). -/
def PROT_EXEC : Nat := 4

/-- ELF program header (the fields the emulator reads). -/
structure Elf64_Phdr where
  p_type : Nat
  p_flags : Nat
  p_offset : Nat
  p_vaddr : Nat
  p_memsz : Nat

/-- `riscv_emulator::elf_p_flags_mmap`: derive mmap protections from the
ELF `p_flags` bits. -/
def elf_p_flags_mmap (v : Nat) : Nat :=
  (if v &&& PF_X ≠ 0 then PROT_EXEC else 0) |||
  (if v &&& PF_W ≠ 0 then PROT_WRITE else 0) |||
  (if v &&& PF_R ≠ 0 then PROT_READ else 0)

/-- One host `mmap` performed by the loader: fixed address, private,
file-backed at the given file offset. -/
structure MmapCall where
  addr : Nat
  len : Nat
  prot : Nat
  offset : Nat

/-- Loader-visible processor state plus the log of `mmap` calls made. -/
structure LoaderState where
  mapped_segments : List (Nat × Nat)
  heap_begin : Nat
  heap_end : Nat
  mmaps : List MmapCall

/-- `riscv_emulator::map_load_segment` (success path): mmap the file at
the header's virtual address with length `memsz` and protections from
`p_flags`, record the segment and update the heap cursors. -/
def map_load_segment (s : LoaderState) (phdr : Elf64_Phdr) : LoaderState :=
  let seg_end := phdr.p_vaddr + phdr.p_memsz
  { mapped_segments := s.mapped_segments ++ [(phdr.p_vaddr, phdr.p_memsz)],
    heap_begin := if s.heap_begin < seg_end then seg_end else s.heap_begin,
    heap_end := if s.heap_begin < seg_end then seg_end else s.heap_end,
    mmaps := s.mmaps ++
      [⟨phdr.p_vaddr, phdr.p_memsz, elf_p_flags_mmap phdr.p_flags, phdr.p_offset⟩] }

/-- The selection test in `riscv_emulator::start`: the source tests
`phdr.p_flags & PT_LOAD` (a flags word against a type constant). -/
def load_selected (phdr : Elf64_Phdr) : Bool :=
  phdr.p_flags &&& PT_LOAD ≠ 0

/-- The program-header loop of `riscv_emulator::start`. -/
def start_map_loads (phdrs : List Elf64_Phdr) (s : LoaderState) : LoaderState :=
  phdrs.foldl (fun s phdr =>
    if load_selected phdr then map_load_segment s phdr else s) s

/-! ### Stepper with direct-mapped decode cache (`riscv_proxy_runner`)

The generated decoder and executor (`riscv_decode_inst`, `rv32_exec` /
`rv64_exec`) and the per-program fetcher are machine-generated code
outside the sources; the stepper is proved for every choice of them, so
they appear here as parameters of the `Stepper` record. -/

/-- One entry of `riscv_proxy_runner::inst_cache`: the raw instruction
word and its decoded record. -/
structure CacheEnt (Dec : Type) where
  inst : Nat
  dec : Dec

/-- The direct-mapped cache lookup of `riscv_proxy_runner::step`:
key is `inst % n`; on a stored-word match reuse the record, else decode
and overwrite the slot.  Returns the record used and the updated cache. -/
def inst_cache_lookup {Dec : Type} (decode : Nat → Dec) (n : Nat)
    (cache : Nat → CacheEnt Dec) (inst : Nat) :
    Dec × (Nat → CacheEnt Dec) :=
  let key := inst % n
  if (cache key).inst = inst then ((cache key).dec, cache)
  else (decode inst, fun k => if k = key then ⟨inst, decode inst⟩ else cache k)

/-- A cache is consistent when every entry stores the decode of its own
raw word (true of every entry the stepper ever writes). -/
def cache_wf {Dec : Type} (decode : Nat → Dec) (cache : Nat → CacheEnt Dec) : Prop :=
  ∀ k, (cache k).dec = decode (cache k).inst

/-- Outcome of `proxy_syscall`: return to the stepper, terminate via the
host `exit`, or panic on an unknown syscall number. -/
inductive ProxyResult (S : Type) where
  | next (s : S)
  | exited (code : Nat)
  | panicked

/-- The external ingredients of `riscv_proxy_runner::step`: program
counter accessor, `riscv_inst_fetch` (as a function of the address),
`P::decode_inst`, the `dec.op == riscv_op_ecall` test, `P::exec_inst`
(`some` of the next state when it returns true), `proxy_syscall`, and the
`P::pc += inst_length` advance. -/
structure Stepper (S Dec : Type) where
  pc : S → Nat
  fetch : Nat → Nat × Nat
  decode : Nat → Dec
  isEcall : Dec → Bool
  exec : Dec → Nat → S → Option S
  proxy : S → ProxyResult S
  advance : S → Nat → S

/-- Result of one iteration of the `while` body of
`riscv_proxy_runner::step`.  `halt` carries the two values cited by the
diagnostic the stepper logs: the current PC and the raw instruction. -/
inductive StepResult (S : Type) where
  | cont (s : S)
  | ecall (s : S)
  | exited (code : Nat)
  | panicked
  | halt (pc inst : Nat)

/-- Whether an iteration outcome involved invoking `proxy_syscall`. -/
def invokesProxy {S : Type} : StepResult S → Bool
  | .ecall _ => true
  | .exited _ => true
  | .panicked => true
  | _ => false

/-- One iteration of the `while` body of `riscv_proxy_runner::step`:
fetch at PC, look up the decode cache, execute; on an unhandled `ecall`
invoke the proxy and advance PC; otherwise halt, citing PC and the raw
instruction. -/
def step_once {S Dec : Type} (M : Stepper S Dec) (n : Nat)
    (cache : Nat → CacheEnt Dec) (s : S) :
    StepResult S × (Nat → CacheEnt Dec) :=
  let fl := M.fetch (M.pc s)
  let dc := inst_cache_lookup M.decode n cache fl.1
  match M.exec dc.1 fl.2 s with
  | some s1 => (.cont s1, dc.2)
  | none =>
      if M.isEcall dc.1 then
        match M.proxy s with
        | .next s1 => (.ecall (M.advance s1 fl.2), dc.2)
        | .exited code => (.exited code, dc.2)
        | .panicked => (.panicked, dc.2)
      else (.halt (M.pc s) fl.1, dc.2)

/-- Result of `riscv_proxy_runner::step(count)`: `quantum` is the `true`
return (count exhausted), `halted` the `false` return after the
illegal-instruction diagnostic. -/
inductive RunOut (S : Type) where
  | quantum (s : S)
  | halted (pc inst : Nat)
  | exited (code : Nat)
  | panicked

/-- `riscv_proxy_runner::step(count)`: iterate the loop body. -/
def step {S Dec : Type} (M : Stepper S Dec) (n : Nat) :
    Nat → (Nat → CacheEnt Dec) → S → RunOut S × (Nat → CacheEnt Dec)
  | 0, c, s => (.quantum s, c)
  | count + 1, c, s =>
      match step_once M n c s with
      | (.cont s1, c1) => step M n count c1 s1
      | (.ecall s1, c1) => step M n count c1 s1
      | (.exited code, c1) => (.exited code, c1)
      | (.panicked, c1) => (.panicked, c1)
      | (.halt pcv instv, c1) => (.halted pcv instv, c1)

/-- The sequence of processor states at each instruction retirement
(after each completed loop iteration), for a run of `count` steps. -/
def stepTrace {S Dec : Type} (M : Stepper S Dec) (n : Nat) :
    Nat → (Nat → CacheEnt Dec) → S → List S
  | 0, _, _ => []
  | count + 1, c, s =>
      match step_once M n c s with
      | (.cont s1, c1) => s1 :: stepTrace M n count c1 s1
      | (.ecall s1, c1) => s1 :: stepTrace M n count c1 s1
      | _ => []

/-- Reference (cache-free) loop body: always execute the fresh decode of
the fetched instruction word. -/
def step_fresh {S Dec : Type} (M : Stepper S Dec) (s : S) : StepResult S :=
  let fl := M.fetch (M.pc s)
  let dec := M.decode fl.1
  match M.exec dec fl.2 s with
  | some s1 => .cont s1
  | none =>
      if M.isEcall dec then
        match M.proxy s with
        | .next s1 => .ecall (M.advance s1 fl.2)
        | .exited code => .exited code
        | .panicked => .panicked
      else .halt (M.pc s) fl.1

/-! ## Theorems -/

/-- Basic facts about `round_up`: it does not decrease its argument, it
overshoots by less than one page, and the result is page-aligned. -/
theorem round_up_spec (n page : Nat) (h : 0 < page) :
    n ≤ round_up n page ∧ round_up n page ≤ n + page - 1 ∧ page ∣ round_up n page := by
  unfold round_up
  refine ⟨?_, Nat.div_mul_le_self _ _, dvd_mul_left _ _⟩
  have hd := Nat.div_add_mod (n + page - 1) page
  have hm : (n + page - 1) % page < page := Nat.mod_lt _ h
  have hcomm : (n + page - 1) / page * page = page * ((n + page - 1) / page) :=
    Nat.mul_comm _ _
  omega

/-- If the rounded request is at most the rounded current break, the
early-return guard of `sys_brk` holds. -/
theorem sys_brk_guard_of_fits (a0 heap_end page : Nat) (hpage : 0 < page)
    (hfit : round_up a0 page ≤ round_up heap_end page) :
    heap_end ≥ round_up a0 page ∨ round_up a0 page = round_up heap_end page := by
  rcases eq_or_lt_of_le hfit with heq | hlt
  · exact Or.inr heq
  · left
    obtain ⟨-, -, a, ha⟩ := round_up_spec a0 page hpage
    obtain ⟨-, hub, b, hb⟩ := round_up_spec heap_end page hpage
    have hab : a < b := by
      apply Nat.lt_of_mul_lt_mul_left (a := page)
      rw [← ha, ← hb]
      exact hlt
    have hstep : round_up a0 page + page ≤ round_up heap_end page := by
      rw [ha, hb]
      calc page * a + page = page * (a + 1) := by ring
        _ ≤ page * b := Nat.mul_le_mul_left page hab
    omega

/-- C1: a `brk` request whose page-rounded address is at most the
page-rounded current `heap_end` returns the unrounded request in `a0`
and leaves `heap_end` and the mapped-segment list unchanged, without
performing any mapping. -/
theorem sys_brk_fits_returns_request (xlen page : Nat) (ok : Bool) (p : Proc)
    (hpage : 0 < page)
    (hfit : round_up p.a0 page ≤ round_up p.heap_end page) :
    (sys_brk xlen page ok p).1.a0 = p.a0 ∧
    (sys_brk xlen page ok p).1.heap_end = p.heap_end ∧
    (sys_brk xlen page ok p).1.mapped_segments = p.mapped_segments ∧
    (sys_brk xlen page ok p).2 = false := by
  have hguard := sys_brk_guard_of_fits p.a0 p.heap_end page hpage hfit
  unfold sys_brk
  rw [if_pos hguard]
  exact ⟨rfl, rfl, rfl, rfl⟩

/-- Witness for C1 at a concrete state: request `0x800` with current
break `0x1000` on 4096-byte pages. -/
theorem sys_brk_fits_returns_request_witness :
    (0 : Nat) < 4096 ∧
    round_up 0x800 4096 ≤ round_up 0x1000 4096 ∧
    ((sys_brk 64 4096 true ⟨0x800, 0, 0, 0, 0x1000, [], fun _ => 0⟩).1.a0 = 0x800 ∧
     (sys_brk 64 4096 true ⟨0x800, 0, 0, 0, 0x1000, [], fun _ => 0⟩).1.heap_end = 0x1000 ∧
     (sys_brk 64 4096 true ⟨0x800, 0, 0, 0, 0x1000, [], fun _ => 0⟩).1.mapped_segments = [] ∧
     (sys_brk 64 4096 true ⟨0x800, 0, 0, 0, 0x1000, [], fun _ => 0⟩).2 = false) :=
  ⟨by decide, by decide,
   sys_brk_fits_returns_request 64 4096 true _ (by decide) (by decide)⟩

/-- C2: when the growth mapping inside `sys_brk` fails, `a0` receives
`-ENOMEM` (two's-complement encoded) and everything else — `heap_end`,
`heap_begin`, the mapped-segment list, the other registers, guest
memory — keeps its prior value. -/
theorem sys_brk_mmap_failure_enomem (xlen page : Nat) (p : Proc)
    (hgrow : ¬ (p.heap_end ≥ round_up p.a0 page ∨
                round_up p.a0 page = round_up p.heap_end page)) :
    (sys_brk xlen page false p).1.a0 = intToReg xlen (-ENOMEM) ∧
    (sys_brk xlen page false p).1.heap_end = p.heap_end ∧
    (sys_brk xlen page false p).1.heap_begin = p.heap_begin ∧
    (sys_brk xlen page false p).1.mapped_segments = p.mapped_segments ∧
    (sys_brk xlen page false p).1.a1 = p.a1 ∧
    (sys_brk xlen page false p).1.a2 = p.a2 ∧
    (sys_brk xlen page false p).1.mem = p.mem := by
  unfold sys_brk
  rw [if_neg hgrow]
  exact ⟨rfl, rfl, rfl, rfl, rfl, rfl, rfl⟩

/-- Witness for C2 at a concrete state: request `0x2000` above break
`0x1000`, host `mmap` failing. -/
theorem sys_brk_mmap_failure_enomem_witness :
    ¬ ((0x1000 : Nat) ≥ round_up 0x2000 4096 ∨
       round_up 0x2000 4096 = round_up 0x1000 4096) ∧
    ((sys_brk 64 4096 false ⟨0x2000, 0, 0, 0, 0x1000, [], fun _ => 0⟩).1.a0 =
       intToReg 64 (-ENOMEM) ∧
     (sys_brk 64 4096 false ⟨0x2000, 0, 0, 0, 0x1000, [], fun _ => 0⟩).1.heap_end = 0x1000 ∧
     (sys_brk 64 4096 false ⟨0x2000, 0, 0, 0, 0x1000, [], fun _ => 0⟩).1.heap_begin = 0 ∧
     (sys_brk 64 4096 false ⟨0x2000, 0, 0, 0, 0x1000, [], fun _ => 0⟩).1.mapped_segments = [] ∧
     (sys_brk 64 4096 false ⟨0x2000, 0, 0, 0, 0x1000, [], fun _ => 0⟩).1.a1 = 0 ∧
     (sys_brk 64 4096 false ⟨0x2000, 0, 0, 0, 0x1000, [], fun _ => 0⟩).1.a2 = 0 ∧
     (sys_brk 64 4096 false ⟨0x2000, 0, 0, 0, 0x1000, [], fun _ => 0⟩).1.mem =
       (⟨0x2000, 0, 0, 0, 0x1000, [], fun _ => 0⟩ : Proc).mem) :=
  ⟨by decide, sys_brk_mmap_failure_enomem 64 4096 _ (by decide)⟩

/-- C9: `heap_end` never decreases across `sys_brk`; when it changes it
becomes the request rounded up to the page size; and the mapped-segment
list is only ever extended (nothing is unmapped). -/
theorem sys_brk_heap_end_monotone (xlen page : Nat) (ok : Bool) (p : Proc) :
    p.heap_end ≤ (sys_brk xlen page ok p).1.heap_end ∧
    ((sys_brk xlen page ok p).1.heap_end ≠ p.heap_end →
      (sys_brk xlen page ok p).1.heap_end = round_up p.a0 page) ∧
    ∃ tail, (sys_brk xlen page ok p).1.mapped_segments =
      p.mapped_segments ++ tail := by
  unfold sys_brk
  by_cases hguard : p.heap_end ≥ round_up p.a0 page ∨
      round_up p.a0 page = round_up p.heap_end page
  · rw [if_pos hguard]
    exact ⟨le_refl _, fun h => absurd rfl h, ⟨[], by simp⟩⟩
  · rw [if_neg hguard]
    push_neg at hguard
    cases ok
    · exact ⟨le_refl _, fun h => absurd rfl h, ⟨[], by simp⟩⟩
    · exact ⟨le_of_lt hguard.1, fun _ => rfl,
        ⟨[(round_up p.heap_end page,
           round_up p.a0 page - round_up p.heap_end page)], rfl⟩⟩

/-- Witness for C9: a growing `brk` call at a concrete state does not
lower `heap_end`. -/
theorem sys_brk_heap_end_monotone_witness :
    (⟨0x3000, 0, 0, 0, 0x1000, [], fun _ => 0⟩ : Proc).heap_end ≤
      (sys_brk 64 4096 true ⟨0x3000, 0, 0, 0, 0x1000, [], fun _ => 0⟩).1.heap_end :=
  (sys_brk_heap_end_monotone 64 4096 true _).1

/-- Masking with a constant below `2 ^ k` only sees the low `k` bits. -/
theorem and_eq_mod_and (w m k : Nat) (h : m < 2 ^ k) :
    w &&& m = w % 2 ^ k &&& m := by
  apply Nat.eq_of_testBit_eq
  intro i
  rcases Nat.lt_or_ge i k with hi | hi
  · simp [Nat.testBit_and, Nat.testBit_mod_two_pow, hi]
  · have hm : m.testBit i = false :=
      Nat.testBit_lt_two_pow (lt_of_lt_of_le h (Nat.pow_le_pow_right (by norm_num) hi))
    simp [Nat.testBit_and, Nat.testBit_mod_two_pow, hm, Nat.not_lt.mpr hi]

/-- `inst_length` only depends on the low seven bits of the word. -/
theorem inst_length_mod128 (w : Nat) :
    inst_length w = inst_length (w % 128) := by
  have h1 : w &&& 3 = w % 128 &&& 3 := by
    have := and_eq_mod_and w 3 7 (by norm_num)
    norm_num at this
    exact this
  have h2 : w &&& 28 = w % 128 &&& 28 := by
    have := and_eq_mod_and w 28 7 (by norm_num)
    norm_num at this
    exact this
  have h3 : w &&& 63 = w % 128 &&& 63 := by
    have := and_eq_mod_and w 63 7 (by norm_num)
    norm_num at this
    exact this
  have h4 : w &&& 127 = w % 128 &&& 127 := by
    have := and_eq_mod_and w 127 7 (by norm_num)
    norm_num at this
    exact this
  unfold inst_length
  rw [h1, h2, h3, h4]

/-- C6: for every instruction word the length classifier follows the four
claimed bit-pattern cases, which are mutually exclusive, and returns the
illegal marker exactly when none applies. -/
theorem inst_length_classification (w : Nat) :
    ((len2case w → inst_length w = 2) ∧
     (len4case w → inst_length w = 4) ∧
     (len6case w → inst_length w = 6) ∧
     (len8case w → inst_length w = 8) ∧
     (¬ len2case w ∧ ¬ len4case w ∧ ¬ len6case w ∧ ¬ len8case w →
        inst_length w = 0)) ∧
    (¬ (len2case w ∧ len4case w) ∧ ¬ (len2case w ∧ len6case w) ∧
     ¬ (len2case w ∧ len8case w) ∧ ¬ (len4case w ∧ len6case w) ∧
     ¬ (len4case w ∧ len8case w) ∧ ¬ (len6case w ∧ len8case w)) := by
  have hkeyA : ∀ r, r < 128 →
      ((r % 4 ≠ 3 → inst_length r = 2) ∧
       ((r % 4 = 3 ∧ r / 4 % 8 ≠ 7) → inst_length r = 4) ∧
       (r % 64 = 31 → inst_length r = 6) ∧
       (r = 63 → inst_length r = 8) ∧
       (¬ (r % 4 ≠ 3) ∧ ¬ (r % 4 = 3 ∧ r / 4 % 8 ≠ 7) ∧ ¬ (r % 64 = 31) ∧
          ¬ (r = 63) → inst_length r = 0)) := by decide
  have hkeyB : ∀ r, r < 128 →
      (¬ ((r % 4 ≠ 3) ∧ (r % 4 = 3 ∧ r / 4 % 8 ≠ 7)) ∧
       ¬ ((r % 4 ≠ 3) ∧ r % 64 = 31) ∧
       ¬ ((r % 4 ≠ 3) ∧ r = 63) ∧
       ¬ ((r % 4 = 3 ∧ r / 4 % 8 ≠ 7) ∧ r % 64 = 31) ∧
       ¬ ((r % 4 = 3 ∧ r / 4 % 8 ≠ 7) ∧ r = 63) ∧
       ¬ (r % 64 = 31 ∧ r = 63)) := by decide
  simp only [len2case, len4case, len6case, len8case]
  set x := w % 128 with hx
  have hw : x < 128 := by rw [hx]; exact Nat.mod_lt _ (by norm_num)
  have e1 : w % 4 = x % 4 := by
    rw [hx]
    exact (Nat.mod_mod_of_dvd w (by norm_num)).symm
  have e2 : w / 4 % 8 = x / 4 % 8 := by
    rw [hx]
    have hdiv : w % 128 / 4 = w / 4 % 32 := by
      rw [show (128 : Nat) = 4 * 32 from rfl]
      exact Nat.mod_mul_right_div_self w 4 32
    rw [hdiv]
    exact (Nat.mod_mod_of_dvd (w / 4) (by norm_num)).symm
  have e3 : w % 64 = x % 64 := by
    rw [hx]
    exact (Nat.mod_mod_of_dvd w (by norm_num)).symm
  have e5 : inst_length w = inst_length x := by
    rw [hx]
    exact inst_length_mod128 w
  rw [e5, e1, e2, e3]
  exact ⟨hkeyA x hw, hkeyB x hw⟩

/-- Witness for C6: the word 0 is in the 2-byte case and classifies as 2
bytes. -/
theorem inst_length_classification_witness :
    len2case 0 ∧ inst_length 0 = 2 :=
  ⟨by decide, (inst_length_classification 0).1.1 (by decide)⟩

/-- C3 counterexample: a host `write` that fails with return value −1 and
errno 9 (`EBADF`) leaves the raw −1 register encoding in `a0`, which is
not the −errno encoding the claim requires. -/
theorem sys_write_not_neg_errno_cex :
    (sys_write 64 ⟨-1, 9⟩ ⟨1, 0x1000, 5, 0, 0, [], fun _ => 0⟩).a0 ≠
      intToReg 64 (-(9 : Int)) ∧
    (sys_write 64 ⟨-1, 9⟩ ⟨1, 0x1000, 5, 0, 0, [], fun _ => 0⟩).a0 =
      intToReg 64 (-1) :=
  ⟨by decide, by decide⟩

/-- C3 (amended): on a failing host call, both `sys_write` and
`sys_fstat` place the host call's raw return value (two's-complement
encoded in XLEN bits, i.e. the encoding of −1, not of −errno) in `a0`. -/
theorem sys_write_fstat_raw_return (xlen : Nat) (host : HostCall)
    (hstat : HostStat) (p : Proc) (_hfail : host.ret < 0) :
    (sys_write xlen host p).a0 = intToReg xlen host.ret ∧
    (sys_fstat xlen host hstat p).a0 = intToReg xlen host.ret := by
  refine ⟨rfl, ?_⟩
  simp only [sys_fstat]
  split <;> rfl

/-- Witness for C3's amended statement at a failing host call. -/
theorem sys_write_fstat_raw_return_witness :
    (-1 : Int) < 0 ∧
    ((sys_write 64 ⟨-1, 9⟩ ⟨1, 0x1000, 5, 0, 0, [], fun _ => 0⟩).a0 =
       intToReg 64 (-1) ∧
     (sys_fstat 64 ⟨-1, 9⟩ ⟨0, 0, 0, 0, 0, 0, 0, 0, 0, 0, 0, 0, 0, 0, 0, 0⟩
        ⟨1, 0x1000, 5, 0, 0, [], fun _ => 0⟩).a0 = intToReg 64 (-1)) :=
  ⟨by decide, sys_write_fstat_raw_return 64 ⟨-1, 9⟩ _ _ (by decide)⟩

/-- C10: when the host `fstat` fails (the value assigned to `a0` is
nonzero), `sys_fstat` writes nothing to guest memory and changes nothing
but `a0`. -/
theorem sys_fstat_failure_frame (xlen : Nat) (host : HostCall)
    (hstat : HostStat) (p : Proc) (hfail : intToReg xlen host.ret ≠ 0) :
    (sys_fstat xlen host hstat p).mem = p.mem ∧
    (sys_fstat xlen host hstat p).a0 = intToReg xlen host.ret ∧
    (sys_fstat xlen host hstat p).a1 = p.a1 ∧
    (sys_fstat xlen host hstat p).a2 = p.a2 ∧
    (sys_fstat xlen host hstat p).heap_begin = p.heap_begin ∧
    (sys_fstat xlen host hstat p).heap_end = p.heap_end ∧
    (sys_fstat xlen host hstat p).mapped_segments = p.mapped_segments := by
  simp only [sys_fstat]
  split
  · next h => exact absurd h hfail
  · exact ⟨rfl, rfl, rfl, rfl, rfl, rfl, rfl⟩

/-- Witness for C10 at a concrete failing `fstat`. -/
theorem sys_fstat_failure_frame_witness :
    intToReg 64 (-1) ≠ 0 ∧
    ((sys_fstat 64 ⟨-1, 9⟩ ⟨0, 0, 0, 0, 0, 0, 0, 0, 0, 0, 0, 0, 0, 0, 0, 0⟩
        ⟨1, 0x1000, 5, 0, 0, [], fun _ => 0⟩).mem =
       (⟨1, 0x1000, 5, 0, 0, [], fun _ => 0⟩ : Proc).mem ∧
     (sys_fstat 64 ⟨-1, 9⟩ ⟨0, 0, 0, 0, 0, 0, 0, 0, 0, 0, 0, 0, 0, 0, 0, 0⟩
        ⟨1, 0x1000, 5, 0, 0, [], fun _ => 0⟩).a0 = intToReg 64 (-1) ∧
     (sys_fstat 64 ⟨-1, 9⟩ ⟨0, 0, 0, 0, 0, 0, 0, 0, 0, 0, 0, 0, 0, 0, 0, 0⟩
        ⟨1, 0x1000, 5, 0, 0, [], fun _ => 0⟩).a1 = 0x1000 ∧
     (sys_fstat 64 ⟨-1, 9⟩ ⟨0, 0, 0, 0, 0, 0, 0, 0, 0, 0, 0, 0, 0, 0, 0, 0⟩
        ⟨1, 0x1000, 5, 0, 0, [], fun _ => 0⟩).a2 = 5 ∧
     (sys_fstat 64 ⟨-1, 9⟩ ⟨0, 0, 0, 0, 0, 0, 0, 0, 0, 0, 0, 0, 0, 0, 0, 0⟩
        ⟨1, 0x1000, 5, 0, 0, [], fun _ => 0⟩).heap_begin = 0 ∧
     (sys_fstat 64 ⟨-1, 9⟩ ⟨0, 0, 0, 0, 0, 0, 0, 0, 0, 0, 0, 0, 0, 0, 0, 0⟩
        ⟨1, 0x1000, 5, 0, 0, [], fun _ => 0⟩).heap_end = 0 ∧
     (sys_fstat 64 ⟨-1, 9⟩ ⟨0, 0, 0, 0, 0, 0, 0, 0, 0, 0, 0, 0, 0, 0, 0, 0⟩
        ⟨1, 0x1000, 5, 0, 0, [], fun _ => 0⟩).mapped_segments = []) :=
  ⟨by decide, sys_fstat_failure_frame 64 ⟨-1, 9⟩ _ _ (by decide)⟩

/-- C4 (code bug): the program-header loop of `riscv_emulator::start`
tests `phdr.p_flags & PT_LOAD` — a flags word against a type constant
(which numerically coincides with `PF_X`) — instead of
`phdr.p_type == PT_LOAD`.  A read/write `PT_LOAD` header is skipped
(nothing is mapped, no segment recorded) even though its type is
`PT_LOAD`, while an executable-flagged header of a different type is
selected. -/
theorem start_load_selection_flags_not_type :
    load_selected ⟨PT_LOAD, PF_R ||| PF_W, 0, 0x10000, 0x1000⟩ = false ∧
    (⟨PT_LOAD, PF_R ||| PF_W, 0, 0x10000, 0x1000⟩ : Elf64_Phdr).p_type = PT_LOAD ∧
    (start_map_loads [⟨PT_LOAD, PF_R ||| PF_W, 0, 0x10000, 0x1000⟩]
        ⟨[], 0, 0, []⟩).mmaps = [] ∧
    (start_map_loads [⟨PT_LOAD, PF_R ||| PF_W, 0, 0x10000, 0x1000⟩]
        ⟨[], 0, 0, []⟩).mapped_segments = [] ∧
    load_selected ⟨4, PF_X, 0, 0x20000, 0x1000⟩ = true ∧
    (⟨4, PF_X, 0, 0x20000, 0x1000⟩ : Elf64_Phdr).p_type ≠ PT_LOAD :=
  ⟨rfl, rfl, rfl, rfl, rfl, by decide⟩

/-! ### Read-after-write lemmas for the byte-level stat layout -/

/-- `natToBytes` produces exactly `size` bytes. -/
theorem natToBytes_length (s v : Nat) : (natToBytes s v).length = s := by
  induction s generalizing v with
  | zero => rfl
  | succ s ih => simp [natToBytes, ih]

/-- A byte-range write leaves addresses outside the range untouched. -/
theorem write_bytes_eq_of_notin (m : Mem) (a : Nat) (bs : List Nat) (x : Nat)
    (h : x < a ∨ a + bs.length ≤ x) : write_bytes m a bs x = m x := by
  induction bs generalizing m a with
  | nil => rfl
  | cons b bs ih =>
      have hx : x ≠ a := by
        rcases h with h | h
        · omega
        · simp only [List.length_cons] at h; omega
      have h1 : x < a + 1 ∨ (a + 1) + bs.length ≤ x := by
        rcases h with h | h
        · omega
        · simp only [List.length_cons] at h; omega
      simp only [write_bytes]
      rw [ih _ _ h1]
      simp [hx]

/-- A field store leaves addresses outside its range untouched. -/
theorem storeField_eq_of_notin (m : Mem) (a s v x : Nat)
    (h : x < a ∨ a + s ≤ x) : storeField m a s v x = m x := by
  unfold storeField
  apply write_bytes_eq_of_notin
  rw [natToBytes_length]
  exact h

/-- `read_le` only inspects the bytes of its own range. -/
theorem read_le_congr (m1 m2 : Mem) (a s : Nat)
    (h : ∀ i, i < s → m1 (a + i) = m2 (a + i)) :
    read_le m1 a s = read_le m2 a s := by
  induction s generalizing a with
  | zero => rfl
  | succ s ih =>
      simp only [read_le]
      have h0 : m1 a = m2 a := by
        have := h 0 (by omega)
        simpa using this
      rw [h0, ih (a + 1) (fun i hi => by
        have := h (i + 1) (by omega)
        rwa [show a + (i + 1) = a + 1 + i by omega] at this)]

/-- Reading back exactly the bytes just written yields the value modulo
the field width. -/
theorem read_after_write (m : Mem) (a s v : Nat) :
    read_le (write_bytes m a (natToBytes s v)) a s = v % 2 ^ (8 * s) := by
  induction s generalizing m a v with
  | zero => simp [read_le, natToBytes, write_bytes, Nat.mod_one]
  | succ s ih =>
      simp only [natToBytes, write_bytes, read_le]
      have h1 : write_bytes (fun x => if x = a then v % 256 else m x) (a + 1)
          (natToBytes s (v / 256)) a = v % 256 := by
        rw [write_bytes_eq_of_notin _ _ _ _ (Or.inl (by omega))]
        simp
      rw [h1, ih (fun x => if x = a then v % 256 else m x) (a + 1) (v / 256)]
      rw [show 8 * (s + 1) = 8 * s + 8 by ring, pow_add,
        show (2 : Nat) ^ 8 = 256 from rfl, Nat.mul_comm (2 ^ (8 * s)) 256,
        Nat.mod_mul]

/-- Reading a range disjoint from a field store sees the old memory. -/
theorem read_le_storeField_disjoint (m : Mem) (a1 s1 v a2 s2 : Nat)
    (h : a1 + s1 ≤ a2 ∨ a2 + s2 ≤ a1) :
    read_le (storeField m a1 s1 v) a2 s2 = read_le m a2 s2 := by
  apply read_le_congr
  intro i hi
  apply storeField_eq_of_notin
  rcases h with h | h
  · right; omega
  · left; omega

/-- Reading exactly a stored field yields its value modulo the width. -/
theorem read_le_storeField_same (m : Mem) (a s v : Nat) :
    read_le (storeField m a s v) a s = v % 2 ^ (8 * s) :=
  read_after_write m a s v

/-- Reading a range disjoint (by offset arithmetic) from every field of a
field-list store sees the old memory. -/
theorem read_le_storeFields_disjoint (m : Mem) (base : Nat)
    (fs : List (Nat × Nat × Nat)) (off sz : Nat)
    (h : ∀ q ∈ fs.map (fun f => (f.1, f.2.1)),
      q.1 + q.2 ≤ off ∨ off + sz ≤ q.1) :
    read_le (storeFields m base fs) (base + off) sz =
      read_le m (base + off) sz := by
  induction fs generalizing m with
  | nil => rfl
  | cons f fs ih =>
      simp only [storeFields]
      rw [ih _ (fun q hq => h q (by simp [hq]))]
      have hf := h (f.1, f.2.1) (by simp)
      apply read_le_storeField_disjoint
      rcases hf with hf | hf
      · left; omega
      · right; omega

/-- Reading the first field of a store list, when all later fields are
disjoint from it, yields its value modulo the width. -/
theorem read_le_storeFields_hit (m : Mem) (base off sz v : Nat)
    (post : List (Nat × Nat × Nat))
    (hpost : ∀ q ∈ post.map (fun f => (f.1, f.2.1)),
      q.1 + q.2 ≤ off ∨ off + sz ≤ q.1) :
    read_le (storeFields m base ((off, sz, v) :: post)) (base + off) sz =
      v % 2 ^ (8 * sz) := by
  simp only [storeFields]
  rw [read_le_storeFields_disjoint _ _ _ _ _ hpost]
  exact read_le_storeField_same m (base + off) sz v

/-- Splitting a field-list store. -/
theorem storeFields_append (m : Mem) (base : Nat)
    (l1 l2 : List (Nat × Nat × Nat)) :
    storeFields m base (l1 ++ l2) = storeFields (storeFields m base l1) base l2 := by
  induction l1 generalizing m with
  | nil => rfl
  | cons f fs ih =>
      simp only [List.cons_append, storeFields]
      exact ih _

/-- Register encoding of a value that fits its width is the value itself. -/
theorem intToReg_of_nonneg (w : Nat) (v : Int) (h0 : 0 ≤ v)
    (h1 : v < 2 ^ w) : intToReg w v = v.toNat := by
  unfold intToReg
  rw [Int.emod_eq_of_lt h0 h1]

/-- Register encodings are bounded by the register width. -/
theorem intToReg_lt (w : Nat) (v : Int) : intToReg w v < 2 ^ w := by
  unfold intToReg
  have h1 : (0 : Int) < 2 ^ w := by positivity
  have h2 := Int.emod_lt_of_pos v h1
  have h3 := Int.emod_nonneg v (ne_of_gt h1)
  have h4 : ((2 : Int) ^ w).toNat = 2 ^ w := by
    rw [show ((2 : Int) ^ w) = ((2 ^ w : Nat) : Int) by push_cast; ring]
    exact Int.toNat_natCast _
  omega

/-- Reading a field out of a field-list store: everything before it may
overlap arbitrarily (it is overwritten), everything after it must be
disjoint. -/
theorem read_le_storeFields_at (m : Mem) (base off sz v : Nat)
    (pre post : List (Nat × Nat × Nat))
    (hpost : ∀ q ∈ post.map (fun f => (f.1, f.2.1)),
      q.1 + q.2 ≤ off ∨ off + sz ≤ q.1) :
    read_le (storeFields m base (pre ++ (off, sz, v) :: post)) (base + off) sz =
      v % 2 ^ (8 * sz) := by
  rw [storeFields_append]
  exact read_le_storeFields_hit _ _ _ _ _ _ hpost

/-- The `xlen = 64` field-store list of `cvt_unknown_stat`, with its
layout offsets evaluated. -/
theorem cvt_unknown_stat_64_eq (m : Mem) (a : Nat) (hs : HostStat) :
    cvt_unknown_stat 64 m a hs = storeFields m a
      [(0, 8, intToReg 64 hs.st_dev), (8, 8, intToReg 64 hs.st_ino),
       (16, 4, intToReg 32 hs.st_mode), (20, 4, intToReg 32 hs.st_nlink),
       (24, 4, intToReg 32 hs.st_uid), (28, 4, intToReg 32 hs.st_gid),
       (32, 8, intToReg 64 hs.st_rdev), (48, 8, intToReg 64 hs.st_size),
       (64, 8, intToReg 64 hs.st_blocks), (56, 4, intToReg 32 hs.st_blksize),
       (72, 8, intToReg 64 hs.st_atime), (80, 8, intToReg 64 hs.st_atime_nsec),
       (88, 8, intToReg 64 hs.st_mtime), (96, 8, intToReg 64 hs.st_mtime_nsec),
       (104, 8, intToReg 64 hs.st_ctime), (112, 8, intToReg 64 hs.st_ctime_nsec)] :=
  rfl

/-- The `xlen = 32` field-store list of `cvt_unknown_stat`, with its
layout offsets evaluated. -/
theorem cvt_unknown_stat_32_eq (m : Mem) (a : Nat) (hs : HostStat) :
    cvt_unknown_stat 32 m a hs = storeFields m a
      [(0, 4, intToReg 32 hs.st_dev), (4, 4, intToReg 32 hs.st_ino),
       (8, 4, intToReg 32 hs.st_mode), (12, 4, intToReg 32 hs.st_nlink),
       (16, 4, intToReg 32 hs.st_uid), (20, 4, intToReg 32 hs.st_gid),
       (24, 4, intToReg 32 hs.st_rdev), (32, 4, intToReg 32 hs.st_size),
       (44, 4, intToReg 32 hs.st_blocks), (36, 4, intToReg 32 hs.st_blksize),
       (48, 4, intToReg 32 hs.st_atime), (52, 4, intToReg 32 hs.st_atime_nsec),
       (56, 4, intToReg 32 hs.st_mtime), (60, 4, intToReg 32 hs.st_mtime_nsec),
       (64, 4, intToReg 32 hs.st_ctime), (68, 4, intToReg 32 hs.st_ctime_nsec)] :=
  rfl

/-- C8: the ABI stat structure has exactly the claimed field order and
sizes for XLEN 32 and 64; `mode`, `size` and `mtime` sit at the offsets
the layout dictates; and after a successful `fstat` proxy the structure
written at the guest address in `a1` contains the host `mode`, `size`
and `mtime` values at those offsets, for both XLENs. -/
theorem fstat_abi_stat_layout (host : HostCall) (hs : HostStat) (p : Proc)
    (hret : host.ret = 0)
    (hmode0 : 0 ≤ hs.st_mode) (hmode1 : hs.st_mode < 2 ^ 32)
    (hsize0 : 0 ≤ hs.st_size) (hsize1 : hs.st_size < 2 ^ 31)
    (hmtime0 : 0 ≤ hs.st_mtime) (hmtime1 : hs.st_mtime < 2 ^ 31) :
    (unknown_stat_fields 32 =
      [("dev", 4), ("ino", 4), ("mode", 4), ("nlink", 4), ("uid", 4),
       ("gid", 4), ("rdev", 4), ("pad1", 4), ("size", 4), ("blksize", 4),
       ("pad2", 4), ("blocks", 4), ("atime", 4), ("atime_nsec", 4),
       ("mtime", 4), ("mtime_nsec", 4), ("ctime", 4), ("ctime_nsec", 4),
       ("unused4", 4), ("unused5", 4)] ∧
     unknown_stat_fields 64 =
      [("dev", 8), ("ino", 8), ("mode", 4), ("nlink", 4), ("uid", 4),
       ("gid", 4), ("rdev", 8), ("pad1", 8), ("size", 8), ("blksize", 4),
       ("pad2", 4), ("blocks", 8), ("atime", 8), ("atime_nsec", 8),
       ("mtime", 8), ("mtime_nsec", 8), ("ctime", 8), ("ctime_nsec", 8),
       ("unused4", 4), ("unused5", 4)]) ∧
    (statOffset 32 2 = 8 ∧ statOffset 32 8 = 32 ∧ statOffset 32 14 = 56 ∧
     statOffset 64 2 = 16 ∧ statOffset 64 8 = 48 ∧ statOffset 64 14 = 88) ∧
    (read_le (sys_fstat 32 host hs p).mem (p.a1 + 8) 4 = hs.st_mode.toNat ∧
     read_le (sys_fstat 32 host hs p).mem (p.a1 + 32) 4 = hs.st_size.toNat ∧
     read_le (sys_fstat 32 host hs p).mem (p.a1 + 56) 4 = hs.st_mtime.toNat) ∧
    (read_le (sys_fstat 64 host hs p).mem (p.a1 + 16) 4 = hs.st_mode.toNat ∧
     read_le (sys_fstat 64 host hs p).mem (p.a1 + 48) 8 = hs.st_size.toNat ∧
     read_le (sys_fstat 64 host hs p).mem (p.a1 + 88) 8 = hs.st_mtime.toNat) := by
  obtain ⟨ret, errno⟩ := host
  subst hret
  have hmem32 : (sys_fstat 32 ⟨0, errno⟩ hs p).mem =
      cvt_unknown_stat 32 p.mem p.a1 hs := by
    simp [sys_fstat, intToReg]
  have hmem64 : (sys_fstat 64 ⟨0, errno⟩ hs p).mem =
      cvt_unknown_stat 64 p.mem p.a1 hs := by
    simp [sys_fstat, intToReg]
  have hsize64 : hs.st_size < 2 ^ 64 := lt_trans hsize1 (by norm_num)
  have hmtime64 : hs.st_mtime < 2 ^ 64 := lt_trans hmtime1 (by norm_num)
  have hsize32 : hs.st_size < 2 ^ 32 := lt_trans hsize1 (by norm_num)
  have hmtime32 : hs.st_mtime < 2 ^ 32 := lt_trans hmtime1 (by norm_num)
  refine ⟨⟨by decide, by decide⟩, ⟨by decide, by decide, by decide, by decide,
    by decide, by decide⟩, ⟨?_, ?_, ?_⟩, ⟨?_, ?_, ?_⟩⟩
  · calc read_le (sys_fstat 32 ⟨0, errno⟩ hs p).mem (p.a1 + 8) 4
        = intToReg 32 hs.st_mode % 2 ^ (8 * 4) := by
          rw [hmem32, cvt_unknown_stat_32_eq]
          exact read_le_storeFields_at p.mem p.a1 8 4 _
            [(0, 4, intToReg 32 hs.st_dev), (4, 4, intToReg 32 hs.st_ino)]
            [(12, 4, intToReg 32 hs.st_nlink), (16, 4, intToReg 32 hs.st_uid),
             (20, 4, intToReg 32 hs.st_gid), (24, 4, intToReg 32 hs.st_rdev),
             (32, 4, intToReg 32 hs.st_size), (44, 4, intToReg 32 hs.st_blocks),
             (36, 4, intToReg 32 hs.st_blksize), (48, 4, intToReg 32 hs.st_atime),
             (52, 4, intToReg 32 hs.st_atime_nsec), (56, 4, intToReg 32 hs.st_mtime),
             (60, 4, intToReg 32 hs.st_mtime_nsec), (64, 4, intToReg 32 hs.st_ctime),
             (68, 4, intToReg 32 hs.st_ctime_nsec)] (by simp)
      _ = intToReg 32 hs.st_mode := Nat.mod_eq_of_lt (intToReg_lt 32 _)
      _ = hs.st_mode.toNat := intToReg_of_nonneg 32 _ hmode0 hmode1
  · calc read_le (sys_fstat 32 ⟨0, errno⟩ hs p).mem (p.a1 + 32) 4
        = intToReg 32 hs.st_size % 2 ^ (8 * 4) := by
          rw [hmem32, cvt_unknown_stat_32_eq]
          exact read_le_storeFields_at p.mem p.a1 32 4 _
            [(0, 4, intToReg 32 hs.st_dev), (4, 4, intToReg 32 hs.st_ino),
             (8, 4, intToReg 32 hs.st_mode), (12, 4, intToReg 32 hs.st_nlink),
             (16, 4, intToReg 32 hs.st_uid), (20, 4, intToReg 32 hs.st_gid),
             (24, 4, intToReg 32 hs.st_rdev)]
            [(44, 4, intToReg 32 hs.st_blocks), (36, 4, intToReg 32 hs.st_blksize),
             (48, 4, intToReg 32 hs.st_atime), (52, 4, intToReg 32 hs.st_atime_nsec),
             (56, 4, intToReg 32 hs.st_mtime), (60, 4, intToReg 32 hs.st_mtime_nsec),
             (64, 4, intToReg 32 hs.st_ctime), (68, 4, intToReg 32 hs.st_ctime_nsec)]
            (by simp)
      _ = intToReg 32 hs.st_size := Nat.mod_eq_of_lt (intToReg_lt 32 _)
      _ = hs.st_size.toNat := intToReg_of_nonneg 32 _ hsize0 hsize32
  · calc read_le (sys_fstat 32 ⟨0, errno⟩ hs p).mem (p.a1 + 56) 4
        = intToReg 32 hs.st_mtime % 2 ^ (8 * 4) := by
          rw [hmem32, cvt_unknown_stat_32_eq]
          exact read_le_storeFields_at p.mem p.a1 56 4 _
            [(0, 4, intToReg 32 hs.st_dev), (4, 4, intToReg 32 hs.st_ino),
             (8, 4, intToReg 32 hs.st_mode), (12, 4, intToReg 32 hs.st_nlink),
             (16, 4, intToReg 32 hs.st_uid), (20, 4, intToReg 32 hs.st_gid),
             (24, 4, intToReg 32 hs.st_rdev), (32, 4, intToReg 32 hs.st_size),
             (44, 4, intToReg 32 hs.st_blocks), (36, 4, intToReg 32 hs.st_blksize),
             (48, 4, intToReg 32 hs.st_atime), (52, 4, intToReg 32 hs.st_atime_nsec)]
            [(60, 4, intToReg 32 hs.st_mtime_nsec), (64, 4, intToReg 32 hs.st_ctime),
             (68, 4, intToReg 32 hs.st_ctime_nsec)] (by simp)
      _ = intToReg 32 hs.st_mtime := Nat.mod_eq_of_lt (intToReg_lt 32 _)
      _ = hs.st_mtime.toNat := intToReg_of_nonneg 32 _ hmtime0 hmtime32
  · calc read_le (sys_fstat 64 ⟨0, errno⟩ hs p).mem (p.a1 + 16) 4
        = intToReg 32 hs.st_mode % 2 ^ (8 * 4) := by
          rw [hmem64, cvt_unknown_stat_64_eq]
          exact read_le_storeFields_at p.mem p.a1 16 4 _
            [(0, 8, intToReg 64 hs.st_dev), (8, 8, intToReg 64 hs.st_ino)]
            [(20, 4, intToReg 32 hs.st_nlink), (24, 4, intToReg 32 hs.st_uid),
             (28, 4, intToReg 32 hs.st_gid), (32, 8, intToReg 64 hs.st_rdev),
             (48, 8, intToReg 64 hs.st_size), (64, 8, intToReg 64 hs.st_blocks),
             (56, 4, intToReg 32 hs.st_blksize), (72, 8, intToReg 64 hs.st_atime),
             (80, 8, intToReg 64 hs.st_atime_nsec), (88, 8, intToReg 64 hs.st_mtime),
             (96, 8, intToReg 64 hs.st_mtime_nsec), (104, 8, intToReg 64 hs.st_ctime),
             (112, 8, intToReg 64 hs.st_ctime_nsec)] (by simp)
      _ = intToReg 32 hs.st_mode := Nat.mod_eq_of_lt (intToReg_lt 32 _)
      _ = hs.st_mode.toNat := intToReg_of_nonneg 32 _ hmode0 hmode1
  · calc read_le (sys_fstat 64 ⟨0, errno⟩ hs p).mem (p.a1 + 48) 8
        = intToReg 64 hs.st_size % 2 ^ (8 * 8) := by
          rw [hmem64, cvt_unknown_stat_64_eq]
          exact read_le_storeFields_at p.mem p.a1 48 8 _
            [(0, 8, intToReg 64 hs.st_dev), (8, 8, intToReg 64 hs.st_ino),
             (16, 4, intToReg 32 hs.st_mode), (20, 4, intToReg 32 hs.st_nlink),
             (24, 4, intToReg 32 hs.st_uid), (28, 4, intToReg 32 hs.st_gid),
             (32, 8, intToReg 64 hs.st_rdev)]
            [(64, 8, intToReg 64 hs.st_blocks), (56, 4, intToReg 32 hs.st_blksize),
             (72, 8, intToReg 64 hs.st_atime), (80, 8, intToReg 64 hs.st_atime_nsec),
             (88, 8, intToReg 64 hs.st_mtime), (96, 8, intToReg 64 hs.st_mtime_nsec),
             (104, 8, intToReg 64 hs.st_ctime), (112, 8, intToReg 64 hs.st_ctime_nsec)]
            (by simp)
      _ = intToReg 64 hs.st_size := Nat.mod_eq_of_lt (intToReg_lt 64 _)
      _ = hs.st_size.toNat := intToReg_of_nonneg 64 _ hsize0 hsize64
  · calc read_le (sys_fstat 64 ⟨0, errno⟩ hs p).mem (p.a1 + 88) 8
        = intToReg 64 hs.st_mtime % 2 ^ (8 * 8) := by
          rw [hmem64, cvt_unknown_stat_64_eq]
          exact read_le_storeFields_at p.mem p.a1 88 8 _
            [(0, 8, intToReg 64 hs.st_dev), (8, 8, intToReg 64 hs.st_ino),
             (16, 4, intToReg 32 hs.st_mode), (20, 4, intToReg 32 hs.st_nlink),
             (24, 4, intToReg 32 hs.st_uid), (28, 4, intToReg 32 hs.st_gid),
             (32, 8, intToReg 64 hs.st_rdev), (48, 8, intToReg 64 hs.st_size),
             (64, 8, intToReg 64 hs.st_blocks), (56, 4, intToReg 32 hs.st_blksize),
             (72, 8, intToReg 64 hs.st_atime), (80, 8, intToReg 64 hs.st_atime_nsec)]
            [(96, 8, intToReg 64 hs.st_mtime_nsec), (104, 8, intToReg 64 hs.st_ctime),
             (112, 8, intToReg 64 hs.st_ctime_nsec)] (by simp)
      _ = intToReg 64 hs.st_mtime := Nat.mod_eq_of_lt (intToReg_lt 64 _)
      _ = hs.st_mtime.toNat := intToReg_of_nonneg 64 _ hmtime0 hmtime64

/-- Witness for C8 at a concrete host stat (mode 33188 = octal 100644,
size 1234, mtime 99991): the 64-bit structure carries `mtime` at offset
88. -/
theorem fstat_abi_stat_layout_witness :
    ((0 : Int) ≤ 33188 ∧ (33188 : Int) < 2 ^ 32 ∧ (0 : Int) ≤ 1234 ∧
     (1234 : Int) < 2 ^ 31 ∧ (0 : Int) ≤ 99991 ∧ (99991 : Int) < 2 ^ 31) ∧
    read_le ((sys_fstat 64 ⟨0, 0⟩
        ⟨1, 2, 33188, 1, 1000, 1000, 0, 1234, 4096, 8, 7, 0, 99991, 0, 11, 0⟩
        ⟨0, 0x3000, 0, 0, 0, [], fun _ => 0⟩).mem) (0x3000 + 88) 8 =
      (99991 : Int).toNat :=
  ⟨⟨by decide, by decide, by decide, by decide, by decide, by decide⟩,
   (fstat_abi_stat_layout ⟨0, 0⟩
      ⟨1, 2, 33188, 1, 1000, 1000, 0, 1234, 4096, 8, 7, 0, 99991, 0, 11, 0⟩
      ⟨0, 0x3000, 0, 0, 0, [], fun _ => 0⟩ rfl (by decide) (by decide) (by decide)
      (by decide) (by decide) (by decide)).2.2.2.2.2⟩

/-! ### Decode-cache transparency and illegal-instruction halting -/

/-- Under the consistency invariant, a cache lookup delivers the fresh
decode of the word — hit or miss — and preserves the invariant. -/
theorem inst_cache_lookup_wf {Dec : Type} (decode : Nat → Dec) (n : Nat)
    (cache : Nat → CacheEnt Dec) (inst : Nat) (h : cache_wf decode cache) :
    (inst_cache_lookup decode n cache inst).1 = decode inst ∧
    cache_wf decode (inst_cache_lookup decode n cache inst).2 := by
  simp only [inst_cache_lookup]
  split
  · next hc => exact ⟨by rw [h (inst % n), hc], h⟩
  · next hc =>
      refine ⟨rfl, fun k => ?_⟩
      by_cases hk : k = inst % n
      · simp [hk]
      · simp [hk, h k]

/-- Under the consistency invariant, one loop iteration behaves exactly
like the cache-free reference body, and the updated cache is again
consistent. -/
theorem step_once_eq_fresh {S Dec : Type} (M : Stepper S Dec) (n : Nat)
    (c : Nat → CacheEnt Dec) (s : S) (h : cache_wf M.decode c) :
    ∃ c1, step_once M n c s = (step_fresh M s, c1) ∧ cache_wf M.decode c1 := by
  obtain ⟨e, w⟩ := inst_cache_lookup_wf M.decode n c (M.fetch (M.pc s)).1 h
  refine ⟨(inst_cache_lookup M.decode n c (M.fetch (M.pc s)).1).2, ?_, w⟩
  simp only [step_once, step_fresh, e]
  cases hE : M.exec (M.decode (M.fetch (M.pc s)).1) (M.fetch (M.pc s)).2 s with
  | some s1 => rfl
  | none =>
      by_cases hEc : M.isEcall (M.decode (M.fetch (M.pc s)).1)
      · cases hP : M.proxy s <;> simp [hEc, hP]
      · simp [hEc]

/-- Under consistent caches of any two sizes, the retirement traces
coincide. -/
theorem stepTrace_eq_of_wf {S Dec : Type} (M : Stepper S Dec) (count : Nat)
    (n1 n2 : Nat) (c1 c2 : Nat → CacheEnt Dec) (s : S)
    (h1 : cache_wf M.decode c1) (h2 : cache_wf M.decode c2) :
    stepTrace M n1 count c1 s = stepTrace M n2 count c2 s := by
  induction count generalizing c1 c2 s with
  | zero => rfl
  | succ count ih =>
      obtain ⟨c1x, he1, hw1⟩ := step_once_eq_fresh M n1 c1 s h1
      obtain ⟨c2x, he2, hw2⟩ := step_once_eq_fresh M n2 c2 s h2
      simp only [stepTrace, he1, he2]
      cases step_fresh M s <;> simp [ih _ _ _ hw1 hw2]

/-- C5: with consistent caches, a run with a one-entry decode cache and a
run with the default 8191-entry cache produce identical post-states at
every retirement; and the record the stepper executes always equals the
fresh decode of the fetched word, hit or miss. -/
theorem decode_cache_transparent {S Dec : Type} (M : Stepper S Dec)
    (count : Nat) (c1 c2 : Nat → CacheEnt Dec) (s : S)
    (h1 : cache_wf M.decode c1) (h2 : cache_wf M.decode c2) :
    stepTrace M 1 count c1 s = stepTrace M 8191 count c2 s ∧
    (∀ n c inst, cache_wf M.decode c →
      (inst_cache_lookup M.decode n c inst).1 = M.decode inst) :=
  ⟨stepTrace_eq_of_wf M count 1 8191 c1 c2 s h1 h2,
   fun n c inst h => (inst_cache_lookup_wf M.decode n c inst h).1⟩

/-- Witness for C5: a concrete stepper over `Nat` states, run for three
iterations from state 5 with consistent caches of sizes 1 and 8191. -/
theorem decode_cache_transparent_witness :
    cache_wf (fun i => i + 1) (fun _ => (⟨0, 1⟩ : CacheEnt Nat)) ∧
    stepTrace (⟨fun s => s, fun a => (a, 4), fun i => i + 1, fun _ => false,
        fun d l s => some (s + d + l), fun _ => .panicked, fun s l => s + l⟩ :
        Stepper Nat Nat) 1 3 (fun _ => ⟨0, 1⟩) 5 =
      stepTrace (⟨fun s => s, fun a => (a, 4), fun i => i + 1, fun _ => false,
        fun d l s => some (s + d + l), fun _ => .panicked, fun s l => s + l⟩ :
        Stepper Nat Nat) 8191 3 (fun _ => ⟨0, 1⟩) 5 :=
  ⟨fun _ => rfl,
   (decode_cache_transparent _ 3 _ _ 5 (fun _ => rfl) (fun _ => rfl)).1⟩

/-- C7: when execute rejects the looked-up record and its opcode is not
`ecall`, the iteration halts carrying the current PC and the raw
instruction (the diagnostic), the proxy is not invoked, and the
surrounding `step` returns the halted outcome — never an exit. -/
theorem step_illegal_halts {S Dec : Type} (M : Stepper S Dec) (n count : Nat)
    (c : Nat → CacheEnt Dec) (s : S)
    (hexec : M.exec (inst_cache_lookup M.decode n c (M.fetch (M.pc s)).1).1
      (M.fetch (M.pc s)).2 s = none)
    (hnotecall : M.isEcall
      (inst_cache_lookup M.decode n c (M.fetch (M.pc s)).1).1 = false) :
    (step_once M n c s).1 = .halt (M.pc s) (M.fetch (M.pc s)).1 ∧
    invokesProxy (step_once M n c s).1 = false ∧
    (step M n (count + 1) c s).1 = .halted (M.pc s) (M.fetch (M.pc s)).1 ∧
    (∀ code, (step M n (count + 1) c s).1 ≠ .exited code) := by
  have h1 : step_once M n c s =
      (.halt (M.pc s) (M.fetch (M.pc s)).1,
       (inst_cache_lookup M.decode n c (M.fetch (M.pc s)).1).2) := by
    simp only [step_once, hexec, hnotecall]
    rfl
  refine ⟨by rw [h1], by rw [h1]; rfl, ?_, ?_⟩
  · simp only [step, h1]
  · intro code
    simp only [step, h1]
    intro hcontra
    cases hcontra

/-- Witness for C7: a stepper whose executor rejects everything and
whose records are never `ecall` halts at once from state 7. -/
theorem step_illegal_halts_witness :
    (step_once (⟨fun s => s, fun _ => (0, 4), fun i => i, fun _ => false,
        fun _ _ _ => none, fun _ => .panicked, fun s l => s + l⟩ :
        Stepper Nat Nat) 1 (fun _ => ⟨0, 0⟩) 7).1 = .halt 7 0 ∧
    invokesProxy (step_once (⟨fun s => s, fun _ => (0, 4), fun i => i,
        fun _ => false, fun _ _ _ => none, fun _ => .panicked,
        fun s l => s + l⟩ : Stepper Nat Nat) 1 (fun _ => ⟨0, 0⟩) 7).1 = false ∧
    (step (⟨fun s => s, fun _ => (0, 4), fun i => i, fun _ => false,
        fun _ _ _ => none, fun _ => .panicked, fun s l => s + l⟩ :
        Stepper Nat Nat) 1 3 (fun _ => ⟨0, 0⟩) 7).1 = .halted 7 0 ∧
    (∀ code, (step (⟨fun s => s, fun _ => (0, 4), fun i => i, fun _ => false,
        fun _ _ _ => none, fun _ => .panicked, fun s l => s + l⟩ :
        Stepper Nat Nat) 1 3 (fun _ => ⟨0, 0⟩) 7).1 ≠ .exited code) :=
  step_illegal_halts _ 1 2 _ 7 rfl rfl

end RV8
